import Mathlib

/-!
Verification development for the WMS site-validation dashboard (`src/app.py`).

The program keeps a flat table of site records in a CSV file, reloads it on
every render cycle, and offers substring-style search, an add-record form,
a delete-by-site-name control, and a handful of aggregations feeding charts.
This file gives a shallow embedding of that record store, the query logic and
the aggregation logic, and proves (or refutes) the specified properties.

Modelling conventions:
* A table is a `List Record`, one entry per row, in file order.
* Pandas / Python library behaviour that the source leans on is embedded
  faithfully at the fragment the proofs exercise, and each such definition's
  doc comment says which library behaviour it captures.
* The current date (`datetime.today().strftime('%Y-%m-%d')`) is passed in as
  an explicit `today : String` parameter.
-/

namespace Wms

/-- One row of the table, with the seven columns of `site_records.csv`
(`Sr_No`, `Site Name`, `Validation Report`, `Issue Sensors`, `WMS_Type`,
`Issue_Description`, `Date_Logged`).  `Sr_No` is an integer column in
pandas; the remaining columns are text. -/
structure Record where
  srNo : Int
  siteName : String
  validationReport : String
  issueSensors : String
  wmsType : String
  issueDescription : String
  dateLogged : String
deriving DecidableEq, Repr

/-- The five seed rows written by `load_data` when no backing file exists
(`app.py` lines 16-26). -/
def seedTable : List Record :=
  [ ⟨1, "Site-A (North)", "Validated", "Temp Sensor", "WMS-1", "Calibration Drift", "2023-01-15"⟩,
    ⟨2, "Site-B (South)", "Failed", "None", "WMS-2", "No Issues", "2023-02-20"⟩,
    ⟨3, "Site-C (East)", "Validated", "Humidity Sensor", "WMS-1", "Connector Fault", "2023-03-10"⟩,
    ⟨4, "Site-D (West)", "Failed", "Pressure Sensor", "WMS-2", "Power Failure", "2023-04-05"⟩,
    ⟨5, "Site-E (North)", "Pending", "None", "WMS-1", "No Issues", "2023-05-12"⟩ ]

/-- The textual form of a row, column by column, as produced by
`row.astype(str)` in the search mask (`app.py` line 108): the integer
`Sr_No` is rendered in decimal, the text columns are taken as they are. -/
def rowStrings (r : Record) : List String :=
  [toString r.srNo, r.siteName, r.validationReport, r.issueSensors,
   r.wmsType, r.issueDescription, r.dateLogged]

/-! ### Search (`app.py` lines 106-111)

`df.apply(lambda row: row.astype(str).str.contains(search_term, case=False).any(), axis=1)`.

`Series.str.contains` defaults to `regex=True`, so the search term is a
Python regular expression searched with `re.search` under `re.IGNORECASE`.
We embed the fragment of that regex language the source's behaviour is
settled on here: a pattern that is a plain sequence of characters where
`'.'` matches any character other than a newline and every other character
matches itself up to ASCII case folding.  All patterns this development
evaluates lie in this fragment, so on them the embedding agrees with
`re.search`. -/

/-- One pattern character against one subject character: `'.'` is the
wildcard (it does not match a newline), anything else matches up to ASCII
case folding (the `case=False` / `re.IGNORECASE` flag). -/
def atomMatch (a c : Char) : Bool :=
  if a == '.' then !(c == '\n') else a.toLower == c.toLower

/-- Does the pattern match at the very start of the subject? -/
def matchHere : List Char → List Char → Bool
  | [], _ => true
  | _ :: _, [] => false
  | a :: as, c :: cs => atomMatch a c && matchHere as cs

/-- Python `re.search`: does the pattern match at some position of the subject? -/
def reSearch (pat : List Char) : List Char → Bool
  | [] => matchHere pat []
  | c :: cs => matchHere pat (c :: cs) || reSearch pat cs

/-- Does some field of the row, in textual form, match the term
(the per-row lambda of `app.py` line 108)? -/
def rowMatches (term : String) (r : Record) : Bool :=
  (rowStrings r).any (fun s => reSearch term.toList s.toList)

/-- The filter logic of the search page (`app.py` lines 106-111): an empty
term (falsy in Python) leaves the table as it is, otherwise the rows whose
mask bit is set are kept in order. -/
def searchTable (t : List Record) (term : String) : List Record :=
  if term == "" then t else t.filter (rowMatches term)

/-! ### The substring reading of search, as the specification words it

"some field of R, converted to text and case-folded, contains the
case-folded T as a substring".  This pair of definitions follows the
specification's words, to be compared with `searchTable` above. -/

/-- Is the first list a prefix of the second? -/
def headAgrees : List Char → List Char → Bool
  | [], _ => true
  | _ :: _, [] => false
  | a :: as, b :: bs => a == b && headAgrees as bs

/-- Is the first list a contiguous sublist of the second? -/
def containsSeq (n : List Char) : List Char → Bool
  | [] => n.isEmpty
  | b :: bs => headAgrees n (b :: bs) || containsSeq n bs

/-- The specification's matching relation: case-fold both sides (ASCII),
then ask for substring containment. -/
def specMatch (term s : String) : Bool :=
  containsSeq (term.toList.map Char.toLower) (s.toList.map Char.toLower)

/-- Does some field of the row contain the term as a case-folded substring —
the specification's per-row condition. -/
def rowMatchesSpec (term : String) (r : Record) : Bool :=
  (rowStrings r).any (fun s => specMatch term s)

/-- The characters that Python's `re` treats specially; a term avoiding all
of them is matched purely literally by `re.search`. -/
def regexSpecials : List Char :=
  ['.', '^', '$', '*', '+', '?', '\x7b', '\x7d', '[', ']', '\\', '|', '(', ')']

/-! ### The record store (`app.py` lines 126-165)

The in-memory `df` and the backing CSV are modelled together as a
`Session`; `save_data` (line 30-31) replaces the disk copy with the full
in-memory table. -/

/-- The mutable state one render cycle sees: the in-memory table `df` and
the persisted table `disk` (the contents of `site_records.csv`). -/
structure Session where
  df : List Record
  disk : List Record
deriving DecidableEq, Repr

/-- The form fields of the add-record expander (`app.py` lines 130-135):
`site_name` and the two issue fields are free text, the other two come from
select boxes. -/
structure FormInput where
  siteName : String
  validationReport : String
  wmsType : String
  issueSensors : String
  issueDescription : String
deriving DecidableEq, Repr

/-- What the form submission handler reports back. -/
inductive FormMsg where
  /-- The success banner naming the saved site. -/
  | saved (site : String)
  /-- The error banner: Site Name is required. -/
  | siteNameRequired
  /-- The uncaught `ValueError` that `int(df['Sr_No'].max() + 1)` raises on
  an empty table: pandas' `max` of an empty column is NaN, and
  `int(NaN + 1)` fails.  Nothing is appended and nothing is saved. -/
  | valueError
deriving DecidableEq, Repr

/-- The pandas expression `df['Sr_No'].max()` (`app.py` line 141): the maximum of the serial
column, or NaN — here `none` — when the table has no rows. -/
def maxSerial : List Record → Option Int
  | [] => none
  | r :: rs =>
    match maxSerial rs with
    | none => some r.srNo
    | some m => some (max r.srNo m)

/-- The record built by the form handler (`app.py` lines 140-148): empty
text for the sensor or the description (falsy in Python) is replaced by the
sentinels `"None"` / `"No Issues"`, and `date_logged` is stamped with
`today`, which stands for `datetime.today().strftime('%Y-%m-%d')`. -/
def newRecordOf (f : FormInput) (today : String) (serial : Int) : Record :=
  { srNo := serial
    siteName := f.siteName
    validationReport := f.validationReport
    issueSensors := if f.issueSensors == "" then "None" else f.issueSensors
    wmsType := f.wmsType
    issueDescription := if f.issueDescription == "" then "No Issues" else f.issueDescription
    dateLogged := today }

/-- The submit branch of the add-record form (`app.py` lines 138-156):
`if new_site:` rejects an empty site name with an error message and no
write; otherwise the handler computes `int(df['Sr_No'].max() + 1)` — which
raises on an empty table before anything is appended or saved — builds the
new row, appends it with `pd.concat`, and persists via `save_data`. -/
def runAddForm (s : Session) (f : FormInput) (today : String) : Session × FormMsg :=
  if f.siteName == "" then
    (s, .siteNameRequired)
  else
    match maxSerial s.df with
    | none => (s, .valueError)
    | some m =>
      let df2 := s.df ++ [newRecordOf f today (m + 1)]
      (⟨df2, df2⟩, .saved f.siteName)

/-- The delete filter (`app.py` line 162): keep exactly the rows whose
`Site Name` differs from the chosen one. -/
def deleteSite (t : List Record) (name : String) : List Record :=
  t.filter (fun r => r.siteName != name)

/-- The delete button handler (`app.py` lines 161-163): filter, then
`save_data`. -/
def runDelete (s : Session) (name : String) : Session :=
  let df2 := deleteSite s.df name
  ⟨df2, df2⟩

/-! ### Aggregations of the dashboard page (`app.py` lines 45-95) -/

/-- The filter `issue_df = df[df['Issue Sensors'] != 'None']` (`app.py` line 70): the
"issue subset" every chart on the dashboard is computed over. -/
def issueSubset (t : List Record) : List Record :=
  t.filter (fun r => r.issueSensors != "None")

/-- The distinct values of a text column in order of first appearance —
the key order pandas' hash-table factorization produces for
`value_counts`. -/
def firstKeys (xs : List String) : List String :=
  (xs.reverse.dedup).reverse

/-- The `(value, frequency)` pairs of a text column, keys in order of first
appearance (pandas `value_counts` before its sort step). -/
def valueCounts (xs : List String) : List (String × Nat) :=
  (firstKeys xs).map (fun k => (k, xs.count k))

/-- Insert a pair into a count-descending list, after every pair whose
count is at least as large — the insertion step of a stable descending
sort. -/
def insertCountDesc (p : String × Nat) : List (String × Nat) → List (String × Nat)
  | [] => [p]
  | q :: qs => if p.2 ≤ q.2 then q :: insertCountDesc p qs else p :: q :: qs

/-- Stable sort by count descending (pandas sorts `value_counts` results
with a stable descending sort, so ties keep their first-appearance
order). -/
def sortCountDesc (l : List (String × Nat)) : List (String × Nat) :=
  l.foldl (fun acc p => insertCountDesc p acc) []

/-- The per-sensor tallies behind the `Distribution of Faulty Sensors` pie
(`app.py` line 72): counts of `Issue Sensors` over the issue subset. -/
def sensorDistribution (t : List Record) : List (String × Nat) :=
  valueCounts ((issueSubset t).map (fun r => r.issueSensors))

/-- The description column of the issue subset, in row order. -/
def issueDescList (t : List Record) : List String :=
  (issueSubset t).map (fun r => r.issueDescription)

/-- The tally `issue_df['Issue_Description'].value_counts()` (`app.py` line 89): the
ranked `(description, count)` list behind the `Top Reported Issues` bar
chart. -/
def topIssues (t : List Record) : List (String × Nat) :=
  sortCountDesc (valueCounts (issueDescList t))

/-- One cell of the grouped histogram `px.histogram(issue_df, x='WMS_Type',
color='Validation Report')` (`app.py` line 81): how many rows of the issue
subset carry the given type and the given validation status. -/
def wmsCrosstab (t : List Record) (ty st : String) : Nat :=
  (issueSubset t).countP (fun r => r.wmsType == ty && r.validationReport == st)

/-! ### The CSV backing store (`app.py` lines 13-31)

`save_data` is `df.to_csv(DATA_FILE, index=False)` and `load_data` ends in
`pd.read_csv(DATA_FILE)`.  The file is modelled as its list of lines (no
field the development evaluates contains a newline).  Writing uses the csv
module's minimal quoting; reading splits each line with the usual quoting
rules, then applies pandas' two relevant post-processing steps: every cell
equal to one of the documented default NA markers becomes NaN, and a column
whose cells are all numeric (or NA) is converted to integers. -/

/-- The default NA markers of `pandas.read_csv`, exactly as the pandas
documentation lists them.  Note that the literal text `None` — the app's
"no faulty sensor" sentinel — is one of them. -/
def naStrings : List String :=
  ["", "#N/A", "#N/A N/A", "#NA", "-1.#IND", "-1.#QNAN", "-NaN", "-nan",
   "1.#IND", "1.#QNAN", "<NA>", "N/A", "NA", "NULL", "NaN", "None", "n/a",
   "nan", "null"]

/-- Is this cell text one of the default NA markers? -/
def isNA (s : String) : Bool := naStrings.contains s

/-- Minimal quoting (`csv.QUOTE_MINIMAL`, the `to_csv` default): a field
needs quoting when it holds a separator, a quote, or a line break. -/
def needsQuoting (s : String) : Bool :=
  s.toList.any (fun c => c == ',' || c == '"' || c == '\n' || c == '\r')

/-- Double every quote character, the csv escaping rule inside a quoted
field. -/
def escQuotes : List Char → List Char
  | [] => []
  | c :: cs => if c == '"' then '"' :: '"' :: escQuotes cs else c :: escQuotes cs

/-- Render one field for `to_csv`: quote it when minimal quoting demands
it, otherwise write it bare. -/
def encodeField (s : String) : String :=
  if needsQuoting s then String.mk ('"' :: (escQuotes s.toList ++ ['"'])) else s

/-- Join fields with the comma separator. -/
def joinComma : List String → String
  | [] => ""
  | [x] => x
  | x :: y :: xs => x ++ "," ++ joinComma (y :: xs)

/-- The fixed header line `to_csv` writes for this table. -/
def csvHeader : String :=
  "Sr_No,Site Name,Validation Report,Issue Sensors,WMS_Type,Issue_Description,Date_Logged"

/-- The seven column names, in order. -/
def headerNames : List String :=
  ["Sr_No", "Site Name", "Validation Report", "Issue Sensors", "WMS_Type",
   "Issue_Description", "Date_Logged"]

/-- One data line of the CSV: the row's textual fields, encoded and joined. -/
def encodeRow (r : Record) : String :=
  joinComma ((rowStrings r).map encodeField)

/-- The writer `save_data` (`app.py` lines 30-31): the full table as file lines,
header first, no index column. -/
def saveData (t : List Record) : List String :=
  csvHeader :: t.map encodeRow

/-- The csv line splitter: a state machine over the characters of a line.
`inQuotes` says whether we are inside a quoted field, `cur` holds the
current field reversed, `out` the finished fields reversed.  A field that
begins with a quote is read quoted, with `""` standing for one quote; a
line ending inside quotes is malformed. -/
def splitCSV : Bool → List Char → List Char → List String → Option (List String)
  | false, [], cur, out => some ((String.mk cur.reverse :: out).reverse)
  | false, c :: cs, cur, out =>
    if c = ',' then splitCSV false cs [] (String.mk cur.reverse :: out)
    else if c = '"' then
      match cur with
      | [] => splitCSV true cs [] out
      | _ :: _ => splitCSV false cs (c :: cur) out
    else splitCSV false cs (c :: cur) out
  | true, [], _, _ => none
  | true, c :: cs, cur, out =>
    if c = '"' then
      match cs with
      | [] => splitCSV false [] cur out
      | d :: cs2 =>
        if d = '"' then splitCSV true cs2 ('"' :: cur) out
        else splitCSV false (d :: cs2) cur out
    else splitCSV true cs (c :: cur) out

/-- Split one CSV line into its fields. -/
def splitLine (s : String) : Option (List String) :=
  splitCSV false s.toList [] []

/-- A cell as `read_csv` materialises it: NaN; an integer (int64 column);
a finite float (float64 column) — modelled by the exact decimal rational
the text denotes, where the program stores the nearest IEEE double; an
infinity; a boolean (bool column); or text.  No statement in this file
depends on a converted float value, only on the fact that such a cell does
not come back as its written text. -/
inductive Cell where
  | nan : Cell
  | intv : Int → Cell
  | floatv : Rat → Cell
  | infv : Bool → Cell
  | boolv : Bool → Cell
  | strv : String → Cell
deriving DecidableEq, Repr

/-- Surrounding blanks, which the csv reader's numeric converters skip
before parsing a cell as a number. -/
def trimWs (cs : List Char) : List Char :=
  ((cs.dropWhile (fun c => c == ' ' || c == '\t')).reverse.dropWhile
    (fun c => c == ' ' || c == '\t')).reverse

/-- Accumulate decimal digits; any non-digit character makes the text
non-numeric. -/
def natOfCharsAux : List Char → Nat → Option Nat
  | [], acc => some acc
  | c :: cs, acc =>
    if c.isDigit then natOfCharsAux cs (acc * 10 + (c.toNat - '0'.toNat))
    else none

/-- The integer reading of a cell's text, as the csv parser's int64
conversion sees it: optional surrounding blanks, an optional leading
minus, then at least one decimal digit. -/
def intOfString? (s : String) : Option Int :=
  match trimWs s.toList with
  | [] => none
  | c :: cs =>
    if c = '-' then
      match cs with
      | [] => none
      | _ :: _ => (natOfCharsAux cs 0).map (fun n => -(n : Int))
    else (natOfCharsAux (c :: cs) 0).map (fun n => (n : Int))

/-- Leading decimal digits of a character list, and what follows them. -/
def spanDigits : List Char → List Char × List Char
  | [] => ([], [])
  | c :: cs =>
    if c.isDigit then
      let p := spanDigits cs
      (c :: p.1, p.2)
    else ([], c :: cs)

/-- The value of a digit string. -/
def natOfDigits (cs : List Char) : Nat :=
  cs.foldl (fun a c => a * 10 + (c.toNat - '0'.toNat)) 0

/-- Is this the (possibly empty) exponent tail of a float literal:
nothing, or `e`/`E`, an optional sign, and at least one digit? -/
def isExpPart : List Char → Bool
  | [] => true
  | c :: cs =>
    if c = 'e' || c = 'E' then
      match cs with
      | [] => false
      | d :: ds =>
        if d = '+' || d = '-' then !ds.isEmpty && ds.all Char.isDigit
        else (d :: ds).all Char.isDigit
    else false

/-- An unsigned float body: digits with an optional decimal point (at
least one digit overall) and an optional exponent. -/
def isFloatBody (cs : List Char) : Bool :=
  let p := spanDigits cs
  match p.2 with
  | [] => decide (0 < p.1.length)
  | c :: r2 =>
    if c = '.' then
      let q := spanDigits r2
      decide (0 < p.1.length + q.1.length) && isExpPart q.2
    else decide (0 < p.1.length) && isExpPart (c :: r2)

/-- Drop one leading sign character. -/
def stripSign : List Char → List Char
  | [] => []
  | c :: cs => if c = '+' || c = '-' then cs else c :: cs

/-- The infinity spellings the csv reader's float converter accepts,
case-insensitively. -/
def infLike (b : List Char) : Bool :=
  let lb := String.mk (b.map Char.toLower)
  lb == "inf" || lb == "infinity"

/-- Text the csv reader's float64 conversion accepts: optional surrounding
blanks and sign, then a float body or an infinity spelling.  (Plain
integer text is float-shaped too.) -/
def isFloatLike (s : String) : Bool :=
  let b := stripSign (trimWs s.toList)
  isFloatBody b || infLike b

/-- The tokens `read_csv` reads as boolean true by default. -/
def trueStrings : List String := ["TRUE", "True", "true"]

/-- The tokens `read_csv` reads as booleans by default. -/
def boolStrings : List String :=
  ["TRUE", "True", "true", "FALSE", "False", "false"]

/-- Is this cell text one of the default boolean tokens? -/
def isBoolLike (s : String) : Bool := boolStrings.contains s

/-- The exponent's integer value (`e`/`E`, optional sign, digits). -/
def expVal : List Char → Int
  | [] => 0
  | _ :: cs =>
    match cs with
    | [] => 0
    | d :: ds =>
      if d = '-' then -(natOfDigits ds : Int)
      else if d = '+' then (natOfDigits ds : Int)
      else (natOfDigits (d :: ds) : Int)

/-- The exact decimal value of an unsigned float body. -/
def floatValOf (cs : List Char) : Rat :=
  let p := spanDigits cs
  match p.2 with
  | [] => (natOfDigits p.1 : Rat)
  | c :: r2 =>
    if c = '.' then
      let q := spanDigits r2
      (natOfDigits (p.1 ++ q.1) : Rat) * (10 : Rat) ^ (expVal q.2 - (q.1.length : Int))
    else (natOfDigits p.1 : Rat) * (10 : Rat) ^ (expVal (c :: r2))

/-- A float-shaped cell through the float64 conversion. -/
def floatCellOf (s : String) : Cell :=
  let t := trimWs s.toList
  let neg : Bool :=
    match t with
    | c :: _ => c == '-'
    | [] => false
  let b := stripSign t
  if infLike b then .infv neg
  else
    let v := floatValOf b
    .floatv (if neg then -v else v)

/-- The dtype `read_csv` infers for one column. -/
inductive ColKind where
  | intCol : ColKind
  | floatCol : ColKind
  | boolCol : ColKind
  | textCol : ColKind
deriving DecidableEq, Repr

/-- Column dtype inference, in the csv reader's order: int64 when every
cell is integer-shaped (an NA marker forces the numeric fallback, since
int64 cannot hold NaN); float64 when every cell is float-shaped or NA;
boolean when every cell is a boolean token or NA; otherwise the column
stays text. -/
def colKind (rows : List (List String)) (i : Nat) : ColKind :=
  if rows.all (fun fr => (intOfString? (fr.getD i "")).isSome) then .intCol
  else if rows.all (fun fr => isNA (fr.getD i "") || isFloatLike (fr.getD i "")) then .floatCol
  else if rows.all (fun fr => isNA (fr.getD i "") || isBoolLike (fr.getD i "")) then .boolCol
  else .textCol

/-- One cell through `read_csv`: NA markers become NaN; in an int64 column
the text is parsed as an integer, in a float64 column as a float, in a
boolean column as a boolean; only in a text column does the cell stay its
written text. -/
def parseCell (k : ColKind) (s : String) : Cell :=
  if isNA s then .nan
  else
    match k with
    | .intCol =>
      match intOfString? s with
      | some n => .intv n
      | none => .strv s
    | .floatCol => floatCellOf s
    | .boolCol => .boolv (trueStrings.contains s)
    | .textCol => .strv s

/-- Split every data line of the file into fields; any malformed line
fails the whole read. -/
def parseLines : List String → Option (List (List String))
  | [] => some []
  | l :: ls =>
    match splitLine l, parseLines ls with
    | some f, some fs => some (f :: fs)
    | _, _ => none

/-- The reader `pd.read_csv` on the file's lines: the first line names the columns,
every further line must split into as many fields, and the cells are
materialised under per-column dtype inference.  A file whose rows do not
parse is a storage-level failure (`none`). -/
def loadData (lines : List String) : Option (List String × List (List Cell)) :=
  match lines with
  | [] => none
  | h :: body =>
    match splitLine h with
    | none => none
    | some hdr =>
      match parseLines body with
      | none => none
      | some rows =>
        if rows.all (fun fr => fr.length == hdr.length) then
          some (hdr, rows.map (fun fr =>
            (List.range hdr.length).map (fun i => parseCell (colKind rows i) (fr.getD i ""))))
        else none

/-- The cells a row should reload as, were reading the exact inverse of
writing: the serial as an integer, every other column as its text. -/
def recordCells (r : Record) : List Cell :=
  [.intv r.srNo, .strv r.siteName, .strv r.validationReport, .strv r.issueSensors,
   .strv r.wmsType, .strv r.issueDescription, .strv r.dateLogged]

/-! ### Concrete data used by witnesses and counterexamples -/

/-- Row two of the seed table. -/
def seedRowB : Record :=
  ⟨2, "Site-B (South)", "Failed", "None", "WMS-2", "No Issues", "2023-02-20"⟩

/-- A form submission with both issue fields left blank. -/
def sampleFormF : FormInput := ⟨"Site-F", "Pending", "WMS-1", "", ""⟩

/-- A second blank-issue form submission. -/
def sampleFormG : FormInput := ⟨"Site-G", "Validated", "WMS-2", "", ""⟩

/-- A form submission used by the serial-reuse demonstration. -/
def sampleFormH : FormInput := ⟨"Gamma", "Pending", "WMS-1", "", ""⟩

/-- A two-row table for the serial-reuse demonstration. -/
def demoRowA : Record := ⟨1, "Alpha", "Validated", "None", "WMS-1", "No Issues", "2023-01-01"⟩

/-- Second row of the demonstration table, holding the maximal serial. -/
def demoRowB : Record := ⟨2, "Beta", "Failed", "Temp Sensor", "WMS-2", "Power Failure", "2023-01-02"⟩

/-- The demonstration table. -/
def demoTable : List Record := [demoRowA, demoRowB]

/-! ### Helper lemmas about the serial column -/

/-- The value `maxSerial t` is `none` exactly on the empty table. -/
theorem maxSerial_eq_none_iff (t : List Record) : maxSerial t = none ↔ t = [] := by
  cases t with
  | nil => simp [maxSerial]
  | cons r rs =>
    simp only [maxSerial]
    cases maxSerial rs <;> simp

/-- Every serial in the table is bounded by `maxSerial`. -/
theorem maxSerial_le {t : List Record} {m : Int} (hm : maxSerial t = some m) :
    ∀ r ∈ t, r.srNo ≤ m := by
  induction t generalizing m with
  | nil => simp [maxSerial] at hm
  | cons a rs ih =>
    intro r hr
    simp only [maxSerial] at hm
    cases hrs : maxSerial rs with
    | none =>
      have hrs' : rs = [] := (maxSerial_eq_none_iff rs).mp hrs
      subst hrs'
      rw [hrs] at hm
      simp at hm hr
      subst hm; subst hr; exact le_refl _
    | some mr =>
      rw [hrs] at hm
      simp at hm
      subst hm
      rcases List.mem_cons.mp hr with h | h
      · subst h; exact le_max_left _ _
      · exact le_trans (ih hrs r h) (le_max_right _ _)

/-- The value of `maxSerial` is attained by some row. -/
theorem maxSerial_mem {t : List Record} {m : Int} (hm : maxSerial t = some m) :
    ∃ r ∈ t, r.srNo = m := by
  induction t generalizing m with
  | nil => simp [maxSerial] at hm
  | cons a rs ih =>
    simp only [maxSerial] at hm
    cases hrs : maxSerial rs with
    | none =>
      rw [hrs] at hm
      simp at hm
      exact ⟨a, List.mem_cons_self a rs, hm⟩
    | some mr =>
      rw [hrs] at hm
      simp at hm
      subst hm
      rcases le_total a.srNo mr with h | h
      · rcases ih hrs with ⟨r, hr, hrm⟩
        exact ⟨r, List.mem_cons_of_mem _ hr, by rw [hrm]; exact (max_eq_right h).symm⟩
      · exact ⟨a, List.mem_cons_self a rs, (max_eq_left h).symm⟩

/-! ### Claim C4: an empty site name is rejected without any write -/

/-- Claim C4: submitting the add-record form with an empty `site_name`
produces only the `Site Name is required.` error: the in-memory table and
the persisted table are both left exactly as they were, and no save
occurs. -/
theorem insert_empty_site_name_rejected (s : Session) (f : FormInput) (today : String)
    (h : f.siteName = "") :
    runAddForm s f today = (s, FormMsg.siteNameRequired) ∧
    (runAddForm s f today).1.df = s.df ∧
    (runAddForm s f today).1.disk = s.disk := by
  have hb : (f.siteName == "") = true := by simp [h]
  simp [runAddForm, hb]

/-- Claim C4, instantiated: the rejection happens as stated on the seed
table with a concrete all-blank form. -/
theorem insert_empty_site_name_rejected_witness :
    runAddForm ⟨seedTable, seedTable⟩ ⟨"", "Pending", "WMS-1", "", ""⟩ "2026-10-12" =
      (⟨seedTable, seedTable⟩, FormMsg.siteNameRequired) ∧
    (runAddForm ⟨seedTable, seedTable⟩ ⟨"", "Pending", "WMS-1", "", ""⟩ "2026-10-12").1.df = seedTable ∧
    (runAddForm ⟨seedTable, seedTable⟩ ⟨"", "Pending", "WMS-1", "", ""⟩ "2026-10-12").1.disk = seedTable :=
  insert_empty_site_name_rejected ⟨seedTable, seedTable⟩ ⟨"", "Pending", "WMS-1", "", ""⟩ "2026-10-12" rfl

/-! ### Claim C2: the serial number assigned on insert -/

/-- Counterexample to claim C2's empty-table clause: on the empty table the
form handler does not assign serial number `1` — `int(df['Sr_No'].max() + 1)`
raises `ValueError` (pandas' `max` of an empty column is NaN), so the
submission ends in an uncaught error and the table stays empty. -/
theorem insert_empty_table_no_serial_one_cex :
    runAddForm ⟨[], []⟩ sampleFormF "2026-10-12" = (⟨[], []⟩, FormMsg.valueError) ∧
    (runAddForm ⟨[], []⟩ sampleFormF "2026-10-12").1.df = [] := by
  constructor <;> rfl

/-- Claim C2 as amended: on a non-empty table, insert with a non-empty site
name appends exactly one record whose serial number is `max(existing
serials) + 1`; on an empty table the insert fails with a `ValueError`
instead of assigning serial `1`. -/
theorem insert_serial_max_plus_one (s : Session) (f : FormInput) (today : String) (m : Int)
    (hname : f.siteName ≠ "") (hmax : maxSerial s.df = some m) :
    (∃ r, (runAddForm s f today).1.df = s.df ++ [r] ∧ r.srNo = m + 1) ∧
    (∀ r ∈ s.df, r.srNo ≤ m) ∧ (∃ r ∈ s.df, r.srNo = m) ∧
    (runAddForm s f today).2 = FormMsg.saved f.siteName := by
  refine ⟨⟨newRecordOf f today (m + 1), ?_, rfl⟩, maxSerial_le hmax, maxSerial_mem hmax, ?_⟩
  · simp [runAddForm, hmax, hname]
  · simp [runAddForm, hmax, hname]

/-- Claim C2's amended theorem, instantiated on the seed table: the new
record gets serial `5 + 1 = 6`. -/
theorem insert_serial_max_plus_one_witness :
    (∃ r, (runAddForm ⟨seedTable, seedTable⟩ sampleFormF "2026-10-12").1.df = seedTable ++ [r] ∧
       r.srNo = (5 : Int) + 1) ∧
    (∀ r ∈ seedTable, r.srNo ≤ (5 : Int)) ∧ (∃ r ∈ seedTable, r.srNo = (5 : Int)) ∧
    (runAddForm ⟨seedTable, seedTable⟩ sampleFormF "2026-10-12").2 = FormMsg.saved "Site-F" :=
  insert_serial_max_plus_one ⟨seedTable, seedTable⟩ sampleFormF "2026-10-12" 5
    (by decide) (by decide)

/-! ### Claim C3: defaults, date stamp and append position -/

/-- Counterexample to claim C3 as universally stated: on the empty table an
insert with a non-empty site name and blank issue fields stores nothing at
all — the handler dies in `int(df['Sr_No'].max() + 1)` before building the
record — so no record with the defaulted fields is appended. -/
theorem insert_empty_table_defaults_cex :
    runAddForm ⟨[], []⟩ sampleFormG "2026-10-12" = (⟨[], []⟩, FormMsg.valueError) ∧
    (runAddForm ⟨[], []⟩ sampleFormG "2026-10-12").1.df = [] := by
  constructor <;> rfl

/-- Claim C3 as amended: on a non-empty table, insert with a non-empty site
name appends exactly one new record after all existing rows (their order
untouched); a blank sensor field is stored as `"None"`, a blank description
as `"No Issues"`, and `date_logged` is stamped with the current date (the
`today` parameter, which stands for `datetime.today().strftime('%Y-%m-%d')`). -/
theorem insert_defaults_and_append (s : Session) (f : FormInput) (today : String) (m : Int)
    (hname : f.siteName ≠ "") (hmax : maxSerial s.df = some m) :
    ∃ r, (runAddForm s f today).1.df = s.df ++ [r] ∧
      (f.issueSensors = "" → r.issueSensors = "None") ∧
      (f.issueSensors ≠ "" → r.issueSensors = f.issueSensors) ∧
      (f.issueDescription = "" → r.issueDescription = "No Issues") ∧
      (f.issueDescription ≠ "" → r.issueDescription = f.issueDescription) ∧
      r.dateLogged = today ∧ r.siteName = f.siteName := by
  refine ⟨newRecordOf f today (m + 1), ?_, ?_, ?_, ?_, ?_, rfl, rfl⟩
  · simp [runAddForm, hmax, hname]
  · intro h; simp [newRecordOf, h]
  · intro h; simp [newRecordOf, h]
  · intro h; simp [newRecordOf, h]
  · intro h; simp [newRecordOf, h]

/-- Claim C3's amended theorem, instantiated on the seed table with blank
issue fields. -/
theorem insert_defaults_and_append_witness :
    ∃ r, (runAddForm ⟨seedTable, seedTable⟩ sampleFormF "2026-10-12").1.df = seedTable ++ [r] ∧
      (sampleFormF.issueSensors = "" → r.issueSensors = "None") ∧
      (sampleFormF.issueSensors ≠ "" → r.issueSensors = sampleFormF.issueSensors) ∧
      (sampleFormF.issueDescription = "" → r.issueDescription = "No Issues") ∧
      (sampleFormF.issueDescription ≠ "" → r.issueDescription = sampleFormF.issueDescription) ∧
      r.dateLogged = "2026-10-12" ∧ r.siteName = sampleFormF.siteName :=
  insert_defaults_and_append ⟨seedTable, seedTable⟩ sampleFormF "2026-10-12" 5
    (by decide) (by decide)

/-! ### Helper lemmas about the stable descending sort and `valueCounts` -/

/-- The ranking relation of the issue chart: an earlier entry's count is at
least the later entry's count. -/
def rankedAbove (a b : String × Nat) : Prop := b.2 ≤ a.2

/-- Inserting is a permutation with consing. -/
theorem insertCountDesc_perm (p : String × Nat) (l : List (String × Nat)) :
    (insertCountDesc p l).Perm (p :: l) := by
  induction l with
  | nil => exact List.Perm.refl _
  | cons q qs ih =>
    unfold insertCountDesc
    by_cases h : p.2 ≤ q.2
    · rw [if_pos h]
      exact (ih.cons q).trans (List.Perm.swap p q qs)
    · rw [if_neg h]

/-- The sort is a permutation of its input. -/
theorem sortCountDesc_perm (l : List (String × Nat)) : (sortCountDesc l).Perm l := by
  have main : ∀ (l acc : List (String × Nat)),
      (l.foldl (fun a p => insertCountDesc p a) acc).Perm (l ++ acc) := by
    intro l
    induction l with
    | nil => intro acc; simp
    | cons x xs ih =>
      intro acc
      simp only [List.foldl_cons]
      exact (ih _).trans
        ((List.Perm.append_left xs (insertCountDesc_perm x acc)).trans List.perm_middle)
  simpa using main l []

/-- Membership is preserved by the sort. -/
theorem mem_sortCountDesc {p : String × Nat} {l : List (String × Nat)} :
    p ∈ sortCountDesc l ↔ p ∈ l :=
  (sortCountDesc_perm l).mem_iff

/-- Inserting into a count-descending list keeps it count-descending. -/
theorem insertCountDesc_sorted {l : List (String × Nat)}
    (hl : List.Pairwise rankedAbove l) (p : String × Nat) :
    List.Pairwise rankedAbove (insertCountDesc p l) := by
  induction l with
  | nil => simp [insertCountDesc, List.pairwise_singleton]
  | cons q qs ih =>
    rcases List.pairwise_cons.mp hl with ⟨hq, hqs⟩
    unfold insertCountDesc
    by_cases h : p.2 ≤ q.2
    · rw [if_pos h]
      refine List.pairwise_cons.mpr ⟨?_, ih hqs⟩
      intro b hb
      rcases List.mem_cons.mp ((insertCountDesc_perm p qs).mem_iff.mp hb) with h1 | h1
      · rw [h1]; exact h
      · exact hq b h1
    · rw [if_neg h]
      push_neg at h
      refine List.pairwise_cons.mpr ⟨?_, hl⟩
      intro b hb
      rcases List.mem_cons.mp hb with h1 | h1
      · rw [h1]; exact le_of_lt h
      · exact le_trans (hq b h1) (le_of_lt h)

/-- The sort's output is count-descending. -/
theorem sortCountDesc_sorted (l : List (String × Nat)) :
    List.Pairwise rankedAbove (sortCountDesc l) := by
  have main : ∀ (l acc : List (String × Nat)), List.Pairwise rankedAbove acc →
      List.Pairwise rankedAbove (l.foldl (fun a p => insertCountDesc p a) acc) := by
    intro l
    induction l with
    | nil => intro acc h; simpa using h
    | cons x xs ih =>
      intro acc hacc
      simp only [List.foldl_cons]
      exact ih _ (insertCountDesc_sorted hacc x)
  exact main l [] List.Pairwise.nil

/-- Stability of one insertion, seen through a fixed-count filter: into a
sorted list, a pair of that count lands behind every earlier pair of the
same count, and a pair of another count changes nothing. -/
theorem insertCountDesc_filter (c : Nat) {l : List (String × Nat)}
    (hl : List.Pairwise rankedAbove l) (p : String × Nat) :
    (insertCountDesc p l).filter (fun q => q.2 == c) =
      if p.2 == c then l.filter (fun q => q.2 == c) ++ [p]
      else l.filter (fun q => q.2 == c) := by
  induction l with
  | nil =>
    by_cases h : p.2 == c <;> simp [insertCountDesc, List.filter_cons, h]
  | cons q qs ih =>
    rcases List.pairwise_cons.mp hl with ⟨hq, hqs⟩
    unfold insertCountDesc
    by_cases h : p.2 ≤ q.2
    · rw [if_pos h, List.filter_cons, ih hqs]
      by_cases hpc : p.2 == c <;> by_cases hqc : q.2 == c <;>
        simp [List.filter_cons, hpc, hqc]
    · rw [if_neg h]
      push_neg at h
      by_cases hpc : p.2 == c
      · have hc : p.2 = c := by simpa using hpc
        have hnil : (q :: qs).filter (fun x => x.2 == c) = [] := by
          rw [List.filter_eq_nil_iff]
          intro x hx
          have hxle : x.2 ≤ q.2 := by
            rcases List.mem_cons.mp hx with h1 | h1
            · rw [h1]
            · exact hq x h1
          have hxlt : x.2 < c := hc ▸ lt_of_le_of_lt hxle h
          simp [Nat.ne_of_lt hxlt]
        simp [List.filter_cons, hpc, hnil]
      · simp [List.filter_cons, hpc]

/-- Stability of the whole sort: restricted to the pairs of one fixed
count, the sorted output reads exactly as the input did. -/
theorem sortCountDesc_filter (c : Nat) (l : List (String × Nat)) :
    (sortCountDesc l).filter (fun q => q.2 == c) = l.filter (fun q => q.2 == c) := by
  have main : ∀ (l acc : List (String × Nat)), List.Pairwise rankedAbove acc →
      (l.foldl (fun a p => insertCountDesc p a) acc).filter (fun q => q.2 == c) =
        acc.filter (fun q => q.2 == c) ++ l.filter (fun q => q.2 == c) := by
    intro l
    induction l with
    | nil => intro acc h; simp
    | cons x xs ih =>
      intro acc hacc
      simp only [List.foldl_cons]
      rw [ih _ (insertCountDesc_sorted hacc x), insertCountDesc_filter c hacc x]
      by_cases hxc : x.2 == c <;> simp [List.filter_cons, hxc, List.append_assoc]
  simpa using main l [] List.Pairwise.nil

/-- Membership in `valueCounts`: the pairs are exactly the occurring values
with their multiplicities. -/
theorem mem_valueCounts {xs : List String} {d : String} {c : Nat} :
    (d, c) ∈ valueCounts xs ↔ d ∈ xs ∧ c = xs.count d := by
  unfold valueCounts firstKeys
  constructor
  · intro h
    rcases List.mem_map.mp h with ⟨k, hk, heq⟩
    have h1 : k = d := congrArg Prod.fst heq
    have h2 : xs.count k = c := congrArg Prod.snd heq
    subst h1
    refine ⟨?_, h2.symm⟩
    have := List.mem_dedup.mp (List.mem_reverse.mp hk)
    exact List.mem_reverse.mp this
  · rintro ⟨hd, hc⟩
    refine List.mem_map.mpr ⟨d, ?_, by rw [hc]⟩
    exact List.mem_reverse.mpr (List.mem_dedup.mpr (List.mem_reverse.mpr hd))

/-- The key column of `valueCounts` is the first-appearance key list. -/
theorem valueCounts_keys (xs : List String) :
    (valueCounts xs).map Prod.fst = firstKeys xs := by
  unfold valueCounts
  rw [List.map_map]
  exact List.map_id _

/-! ### Claim C5: delete removes exactly the rows with the given name -/

/-- Claim C5: deleting a site name keeps the surviving rows in order (the
result is a sublist of the table), removes every copy of a row whose
`site_name` equals the argument while every other row keeps its
multiplicity, and leaves the table unchanged when no row bears the name. -/
theorem delete_exact_matches (t : List Record) (name : String) :
    (deleteSite t name).Sublist t ∧
    (∀ r : Record, (deleteSite t name).count r =
      if r.siteName = name then 0 else t.count r) ∧
    ((∀ r ∈ t, r.siteName ≠ name) → deleteSite t name = t) := by
  refine ⟨List.filter_sublist t, ?_, ?_⟩
  · intro r
    by_cases h : r.siteName = name
    · rw [if_pos h, List.count_eq_zero]
      intro hr
      have hmem := List.mem_filter.mp hr
      simp [h] at hmem
    · rw [if_neg h]
      exact List.count_filter (by simp [h])
  · intro h
    rw [deleteSite, List.filter_eq_self]
    intro a ha
    simp [h a ha]

/-- Claim C5, instantiated: deleting `Site-B (South)` from the seed table
keeps the order, erases that row, and deleting an absent name is the
identity. -/
theorem delete_exact_matches_witness :
    (deleteSite seedTable "Site-B (South)").Sublist seedTable ∧
    (deleteSite seedTable "Site-B (South)").count seedRowB = 0 ∧
    deleteSite seedTable "Site-Z (Nowhere)" = seedTable := by
  have h1 := delete_exact_matches seedTable "Site-B (South)"
  have h2 := delete_exact_matches seedTable "Site-Z (Nowhere)"
  refine ⟨h1.1, ?_, h2.2.2 (by decide)⟩
  have := h1.2.1 seedRowB
  simpa [seedRowB] using this

/-! ### Claim C6: the sensor distribution sums to the issue-row count -/

/-- Claim C6: the counts in the faulty-sensor distribution add up to
exactly the number of rows whose `issue_sensor` is not the sentinel
`"None"`. -/
theorem sensor_distribution_total (t : List Record) :
    ((sensorDistribution t).map Prod.snd).sum =
      t.countP (fun r => r.issueSensors != "None") := by
  unfold sensorDistribution valueCounts firstKeys
  rw [List.map_map]
  set xs := (issueSubset t).map (fun r => r.issueSensors) with hxs
  have h1 : (Prod.snd ∘ fun k => (k, xs.count k)) = fun k => xs.count k := rfl
  rw [h1, List.map_reverse, List.sum_reverse]
  have h2 : xs.reverse.dedup.map (fun k => xs.count k) =
      xs.reverse.dedup.map (fun k => xs.reverse.count k) :=
    List.map_congr_left (fun a _ => (List.count_reverse a xs).symm)
  rw [h2, List.sum_map_count_dedup_eq_length, List.length_reverse, hxs,
    List.length_map, issueSubset, ← List.countP_eq_length_filter]

/-! ### Claim C7: the charts filter on sensor presence, not on status -/

/-- Claim C7: the WMS-failure crosstab counts exactly the rows whose sensor
is not `"None"` and whose type and status match — `validation_status` never
filters rows out; a `Failed` row whose sensor is `"None"` is excluded from
the issue subset, a row with a real sensor and status `Validated` or
`Pending` is included, and the top-issue tallies count descriptions over
that same subset. -/
theorem issue_charts_filter_by_sensor (t : List Record) (ty st : String) :
    wmsCrosstab t ty st =
      t.countP (fun r => (r.wmsType == ty && r.validationReport == st) &&
        r.issueSensors != "None") ∧
    (∀ r ∈ t, r.validationReport = "Failed" → r.issueSensors = "None" →
      r ∉ issueSubset t) ∧
    (∀ r ∈ t, r.issueSensors ≠ "None" →
      (r.validationReport = "Validated" ∨ r.validationReport = "Pending") →
      r ∈ issueSubset t) ∧
    (∀ p ∈ topIssues t, p.2 = (issueDescList t).count p.1) := by
  refine ⟨List.countP_filter _ _ t, ?_, ?_, ?_⟩
  · intro r _ _ hnone hmem
    have := (List.mem_filter.mp hmem).2
    simp [hnone] at this
  · intro r hr hs _
    exact List.mem_filter.mpr ⟨hr, by simp [hs]⟩
  · intro p hp
    have hmem : p ∈ valueCounts (issueDescList t) := mem_sortCountDesc.mp hp
    rcases p with ⟨d, c⟩
    exact (mem_valueCounts.mp hmem).2

/-- Claim C7, instantiated on the seed table: the `Failed` row `Site-B`
with no faulty sensor is excluded, the `Validated` row `Site-A` with a
faulty sensor is included, and the crosstab cell `(WMS-2, Failed)` counts
one row. -/
theorem issue_charts_filter_by_sensor_witness :
    wmsCrosstab seedTable "WMS-2" "Failed" = 1 ∧
    seedRowB ∉ issueSubset seedTable ∧
    ⟨1, "Site-A (North)", "Validated", "Temp Sensor", "WMS-1", "Calibration Drift", "2023-01-15"⟩
      ∈ issueSubset seedTable := by
  have h := issue_charts_filter_by_sensor seedTable "WMS-2" "Failed"
  refine ⟨?_, ?_, ?_⟩
  · rw [h.1]; decide
  · exact h.2.1 seedRowB (by decide) (by decide) (by decide)
  · exact h.2.2.1 _ (by decide) (by decide) (Or.inl (by decide))

/-! ### Claim C9: the ranking of top issue descriptions -/

/-- Claim C9: the top-issue list ranks the `(description, count)` pairs of
the issue subset by count descending; its members are exactly the occurring
descriptions with their frequencies; and among pairs of equal count the
output preserves the order in which the descriptions are first encountered
in the table (the sort is stable). -/
theorem top_issues_ranking (t : List Record) :
    List.Pairwise rankedAbove (topIssues t) ∧
    (∀ d c, (d, c) ∈ topIssues t ↔
      d ∈ issueDescList t ∧ c = (issueDescList t).count d) ∧
    (∀ d1 d2 c, (d1, c) ∈ topIssues t → (d2, c) ∈ topIssues t →
      (List.Sublist [(d1, c), (d2, c)] (topIssues t) ↔
        List.Sublist [d1, d2] (firstKeys (issueDescList t)))) := by
  refine ⟨sortCountDesc_sorted _, ?_, ?_⟩
  · intro d c
    rw [topIssues, mem_sortCountDesc, mem_valueCounts]
  · intro d1 d2 c h1 h2
    have hvc1 : (d1, c) ∈ valueCounts (issueDescList t) := mem_sortCountDesc.mp h1
    have hvc2 : (d2, c) ∈ valueCounts (issueDescList t) := mem_sortCountDesc.mp h2
    have hc1 : c = (issueDescList t).count d1 := (mem_valueCounts.mp hvc1).2
    have hc2 : c = (issueDescList t).count d2 := (mem_valueCounts.mp hvc2).2
    constructor
    · intro hsub
      have hf := hsub.filter (fun q => q.2 == c)
      rw [show [(d1, c), (d2, c)].filter (fun q => q.2 == c) = [(d1, c), (d2, c)] by
        simp [List.filter_cons]] at hf
      rw [topIssues, sortCountDesc_filter] at hf
      have hvc := hf.trans (List.filter_sublist _)
      have hmap := hvc.map Prod.fst
      simpa [valueCounts_keys] using hmap
    · intro hsub
      have hmap := hsub.map (fun k => (k, (issueDescList t).count k))
      have hvc : List.Sublist [(d1, c), (d2, c)] (valueCounts (issueDescList t)) := by
        rw [valueCounts, firstKeys]
        simpa [← hc1, ← hc2, valueCounts, firstKeys] using hmap
      have hf := hvc.filter (fun q => q.2 == c)
      rw [show [(d1, c), (d2, c)].filter (fun q => q.2 == c) = [(d1, c), (d2, c)] by
        simp [List.filter_cons]] at hf
      rw [← sortCountDesc_filter] at hf
      exact hf.trans (List.filter_sublist _)

/-- Claim C9, instantiated on the seed table: `Calibration Drift` and
`Power Failure` both occur once, `Calibration Drift` is encountered first,
and the ranked list keeps them in that order. -/
theorem top_issues_ranking_witness :
    List.Sublist [("Calibration Drift", 1), ("Power Failure", 1)] (topIssues seedTable) :=
  ((top_issues_ranking seedTable).2.2 "Calibration Drift" "Power Failure" 1
    (by decide) (by decide)).mpr (by decide)

/-! ### Claim C10: serial numbers of deleted rows can be reassigned -/

/-- Claim C10: starting from a table whose maximal serial is `M`, if every
row carrying `M` bears the deleted site name, then inserting into the
surviving table assigns `max(surviving serials) + 1`, which is at most `M` —
so a serial previously assigned to a now-deleted row can be handed out
again (the final conjunct shows it happening on a concrete two-row table) —
while uniqueness among present rows is preserved: the new serial is
strictly above every surviving serial. -/
theorem serial_reuse_after_delete (t : List Record) (name : String) (f : FormInput)
    (today : String) (M m' : Int)
    (hmaxt : maxSerial t = some M)
    (hdel : ∀ r ∈ t, r.srNo = M → r.siteName = name)
    (hmax' : maxSerial (deleteSite t name) = some m')
    (hname : f.siteName ≠ "") :
    (∃ r, (runAddForm ⟨deleteSite t name, deleteSite t name⟩ f today).1.df =
        deleteSite t name ++ [r] ∧ r.srNo = m' + 1) ∧
    m' + 1 ≤ M ∧
    (∀ x ∈ deleteSite t name, x.srNo < m' + 1) ∧
    ((runAddForm ⟨deleteSite demoTable "Beta", deleteSite demoTable "Beta"⟩
        sampleFormH "2026-10-12").1.df =
      [demoRowA, newRecordOf sampleFormH "2026-10-12" 2] ∧ demoRowB.srNo = 2) := by
  refine ⟨⟨newRecordOf f today (m' + 1), ?_, rfl⟩, ?_, ?_, by decide⟩
  · simp [runAddForm, hname, hmax']
  · obtain ⟨x, hx, hxm⟩ := maxSerial_mem hmax'
    have hxt : x ∈ t := (List.mem_filter.mp hx).1
    have hle : x.srNo ≤ M := maxSerial_le hmaxt x hxt
    have hne : x.srNo ≠ M := by
      intro he
      have hn := hdel x hxt he
      have hkeep := (List.mem_filter.mp hx).2
      simp [hn] at hkeep
    omega
  · intro x hx
    have := maxSerial_le hmax' x hx
    omega

/-- Claim C10, instantiated: deleting `Beta` (serial 2, the maximum) from
the demonstration table and inserting again reassigns serial `1 + 1 = 2`,
the serial the deleted row used to hold. -/
theorem serial_reuse_after_delete_witness :
    (∃ r, (runAddForm ⟨deleteSite demoTable "Beta", deleteSite demoTable "Beta"⟩
        sampleFormH "2026-10-12").1.df = deleteSite demoTable "Beta" ++ [r] ∧
        r.srNo = (1 : Int) + 1) ∧
    (1 : Int) + 1 ≤ 2 := by
  have h := serial_reuse_after_delete demoTable "Beta" sampleFormH "2026-10-12" 2 1
    (by decide) (by decide) (by decide) (by decide)
  exact ⟨h.1, h.2.1⟩

/-! ### Claim C1: what search actually matches -/

/-- On a pattern free of regex specials, anchored regex matching is prefix
containment of the case-folded texts. -/
theorem matchHere_eq_headAgrees {pat : List Char}
    (hplain : ∀ a ∈ pat, a ∉ regexSpecials) (l : List Char) :
    matchHere pat l = headAgrees (pat.map Char.toLower) (l.map Char.toLower) := by
  induction pat generalizing l with
  | nil => cases l <;> rfl
  | cons a as ih =>
    cases l with
    | nil => rfl
    | cons c cs =>
      have ha : a ∉ regexSpecials := hplain a (List.mem_cons_self _ _)
      have hadot : ¬ ((a == '.') = true) := by
        simp only [beq_iff_eq]
        intro he
        exact ha (he ▸ (by simp [regexSpecials]))
      simp only [matchHere, headAgrees, List.map_cons, atomMatch, if_neg hadot]
      rw [ih (fun x hx => hplain x (List.mem_cons_of_mem _ hx)) cs]

/-- On a pattern free of regex specials, `re.search` is substring
containment of the case-folded texts. -/
theorem reSearch_eq_containsSeq {pat : List Char}
    (hplain : ∀ a ∈ pat, a ∉ regexSpecials) (l : List Char) :
    reSearch pat l = containsSeq (pat.map Char.toLower) (l.map Char.toLower) := by
  induction l with
  | nil =>
    rw [show reSearch pat [] = matchHere pat [] from rfl,
      matchHere_eq_headAgrees hplain]
    cases pat <;> simp [headAgrees, containsSeq]
  | cons c cs ih =>
    simp only [reSearch, containsSeq, List.map_cons]
    rw [matchHere_eq_headAgrees hplain, ih]
    rfl

/-- Counterexample to claim C1 as stated: the term `"."` is a regex
wildcard for `str.contains`, so the seed row `Site-B (South)` appears in
the search result although none of its fields contains the character `.`
as a substring. -/
theorem search_dot_regex_cex :
    seedRowB ∈ searchTable seedTable "." ∧ rowMatchesSpec "." seedRowB = false := by
  exact ⟨by decide, by decide⟩

/-- Claim C1 as amended: the search term is interpreted as a
case-insensitive regular expression, so for a non-empty term built only of
characters that `re` does not treat specially, a record appears in the
result exactly when some field, case-folded, contains the case-folded term
as a substring; the result preserves row order, and the empty term returns
the full table unchanged. -/
theorem search_plain_term_correct (t : List Record) (term : String)
    (hne : term ≠ "") (hplain : ∀ a ∈ term.toList, a ∉ regexSpecials) :
    (∀ r, r ∈ searchTable t term ↔ r ∈ t ∧ rowMatchesSpec term r = true) ∧
    (searchTable t term).Sublist t ∧
    searchTable t "" = t := by
  have hbe : ¬ ((term == "") = true) := by simpa using hne
  refine ⟨?_, ?_, by simp [searchTable]⟩
  · intro r
    rw [searchTable, if_neg hbe, List.mem_filter]
    have heq : rowMatches term r = rowMatchesSpec term r := by
      unfold rowMatches rowMatchesSpec
      have hfun : (fun s => reSearch term.toList s.toList) =
          (fun s : String => specMatch term s) :=
        funext fun s => by rw [reSearch_eq_containsSeq hplain, specMatch]
      rw [hfun]
    rw [heq]
  · rw [searchTable, if_neg hbe]
    exact List.filter_sublist t

/-- Claim C1's amended theorem, instantiated: searching the plain term
`"south"` on the seed table matches row `Site-B (South)` by the substring
criterion, preserves order, and the empty term returns everything. -/
theorem search_plain_term_correct_witness :
    (seedRowB ∈ searchTable seedTable "south" ↔
      seedRowB ∈ seedTable ∧ rowMatchesSpec "south" seedRowB = true) ∧
    (searchTable seedTable "south").Sublist seedTable ∧
    searchTable seedTable "" = seedTable := by
  have h := search_plain_term_correct seedTable "south" (by decide) (by decide)
  exact ⟨h.1 seedRowB, h.2.1, h.2.2⟩

/-! ### Claim C8: the write-then-reload round trip -/

/-- Making a string from its own characters gives the string back. -/
theorem mk_toList (s : String) : String.mk s.toList = s := rfl

/-- Appending strings concatenates their character lists. -/
theorem toList_append (a b : String) : (a ++ b).toList = a.toList ++ b.toList := by
  cases a
  cases b
  rfl

/-- Text fields that survive the reload untouched: not an NA marker, not
integer-shaped, not float-shaped, not a boolean token (so the column keeps
its text dtype rather than being converted to int64, float64 or bool), and
free of line breaks (so the file really is one line per row). -/
def cleanText (s : String) : Prop :=
  isNA s = false ∧ intOfString? s = none ∧ isFloatLike s = false ∧
  isBoolLike s = false ∧ '\n' ∉ s.toList ∧ '\r' ∉ s.toList

/-- A record all of whose fields reload as written. -/
def cleanRecord (r : Record) : Prop :=
  intOfString? (toString r.srNo) = some r.srNo ∧ isNA (toString r.srNo) = false ∧
  cleanText r.siteName ∧ cleanText r.validationReport ∧ cleanText r.issueSensors ∧
  cleanText r.wmsType ∧ cleanText r.issueDescription ∧ cleanText r.dateLogged

instance (s : String) : Decidable (cleanText s) := by
  unfold cleanText
  infer_instance

instance (r : Record) : Decidable (cleanRecord r) := by
  unfold cleanRecord
  infer_instance

/-- End of line in unquoted mode: the current field is closed and the
fields are returned. -/
theorem splitCSV_finish (cur : List Char) (out : List String) :
    splitCSV false [] cur out = some ((String.mk cur.reverse :: out).reverse) := rfl

/-- A separator in unquoted mode closes the current field. -/
theorem splitCSV_comma (cs cur : List Char) (out : List String) :
    splitCSV false (',' :: cs) cur out = splitCSV false cs [] (String.mk cur.reverse :: out) := by
  simp [splitCSV]

/-- An ordinary character in unquoted mode is appended to the current
field. -/
theorem splitCSV_false_other (c : Char) (hc : ¬c = ',') (hq : ¬c = '"')
    (cs cur : List Char) (out : List String) :
    splitCSV false (c :: cs) cur out = splitCSV false cs (c :: cur) out := by
  simp [splitCSV, hc, hq]

/-- A quote at the start of a field opens quoted mode. -/
theorem splitCSV_false_quote_start (cs : List Char) (out : List String) :
    splitCSV false ('"' :: cs) [] out = splitCSV true cs [] out := by
  simp [splitCSV]

/-- An ordinary character in quoted mode is appended to the current
field. -/
theorem splitCSV_true_other (c : Char) (hc : ¬c = '"')
    (cs cur : List Char) (out : List String) :
    splitCSV true (c :: cs) cur out = splitCSV true cs (c :: cur) out := by
  rw [splitCSV.eq_def]
  simp [hc]

/-- A doubled quote in quoted mode stands for one quote character. -/
theorem splitCSV_true_escaped (cs cur : List Char) (out : List String) :
    splitCSV true ('"' :: '"' :: cs) cur out = splitCSV true cs ('"' :: cur) out := by
  simp [splitCSV]

/-- A quote not followed by another quote closes quoted mode. -/
theorem splitCSV_true_close (cs cur : List Char) (out : List String)
    (h : cs = [] ∨ ∃ d cs', cs = d :: cs' ∧ ¬d = '"') :
    splitCSV true ('"' :: cs) cur out = splitCSV false cs cur out := by
  rcases h with rfl | ⟨d, cs', rfl, hd⟩
  · simp [splitCSV]
  · simp [splitCSV, hd]

/-- Ordinary characters in unquoted mode are accumulated one by one. -/
theorem splitCSV_eatPlain (g : List Char) (hg : ∀ c ∈ g, ¬c = ',' ∧ ¬c = '"') :
    ∀ (cs cur : List Char) (out : List String),
      splitCSV false (g ++ cs) cur out = splitCSV false cs (g.reverse ++ cur) out := by
  induction g with
  | nil => intro cs cur out; simp
  | cons c gs ih =>
    intro cs cur out
    obtain ⟨hc, hq⟩ := hg c (List.mem_cons_self _ _)
    rw [List.cons_append, splitCSV_false_other c hc hq,
      ih (fun x hx => hg x (List.mem_cons_of_mem _ hx)) cs (c :: cur) out]
    simp

/-- Inside quotes, an escaped field is consumed back to its raw characters. -/
theorem splitCSV_eatQuoted (g : List Char) :
    ∀ (cs cur : List Char) (out : List String),
      splitCSV true (escQuotes g ++ cs) cur out = splitCSV true cs (g.reverse ++ cur) out := by
  induction g with
  | nil => intro cs cur out; simp [escQuotes]
  | cons c gs ih =>
    intro cs cur out
    by_cases hc : c = '"'
    · subst hc
      have hesc : escQuotes ('"' :: gs) = '"' :: '"' :: escQuotes gs := by
        simp [escQuotes]
      rw [hesc, List.cons_append, List.cons_append, splitCSV_true_escaped, ih]
      simp
    · have hesc : escQuotes (c :: gs) = c :: escQuotes gs := by
        simp [escQuotes, hc]
      rw [hesc, List.cons_append, splitCSV_true_other c hc, ih]
      simp

/-- A field that minimal quoting leaves bare holds no separator and no
quote. -/
theorem needsQuoting_false_chars {s : String} (h : needsQuoting s = false) :
    ∀ c ∈ s.toList, ¬c = ',' ∧ ¬c = '"' := by
  intro c hc
  unfold needsQuoting at h
  rw [List.any_eq_false] at h
  have hcfact := h c hc
  simp only [Bool.or_eq_true, beq_iff_eq, not_or] at hcfact
  exact ⟨hcfact.1.1.1, hcfact.1.1.2⟩

/-- Consuming one encoded field: whether it was written bare or quoted,
the machine ends with exactly the original field text accumulated and the
remainder — an end of line or a separator — still to process. -/
theorem splitCSV_field (s : String) (cs : List Char) (out : List String)
    (hcs : cs = [] ∨ ∃ cs', cs = ',' :: cs') :
    splitCSV false ((encodeField s).toList ++ cs) [] out =
      splitCSV false cs s.toList.reverse out := by
  by_cases hq : needsQuoting s = true
  · have henc : (encodeField s).toList = '"' :: (escQuotes s.toList ++ ['"']) := by
      simp [encodeField, hq]
    rw [henc, List.cons_append, splitCSV_false_quote_start,
      List.append_assoc, List.singleton_append, splitCSV_eatQuoted,
      List.append_nil]
    rcases hcs with rfl | ⟨cs', rfl⟩
    · rw [splitCSV_true_close [] _ _ (Or.inl rfl)]
    · rw [splitCSV_true_close _ _ _ (Or.inr ⟨',', cs', rfl, by decide⟩)]
  · have hqf : needsQuoting s = false := by simpa using hq
    have henc : (encodeField s).toList = s.toList := by simp [encodeField, hqf]
    rw [henc, splitCSV_eatPlain s.toList (needsQuoting_false_chars hqf)]
    simp

/-- Splitting a line that joins encoded fields returns exactly those
fields (appended to whatever was already collected). -/
theorem parse_encodeRow : ∀ (fields : List String) (out : List String), fields ≠ [] →
    splitCSV false (joinComma (fields.map encodeField)).toList [] out =
      some (out.reverse ++ fields) := by
  intro fields
  induction fields with
  | nil => intro out h; exact absurd rfl h
  | cons s rest ih =>
    intro out _
    cases rest with
    | nil =>
      simp only [List.map_cons, List.map_nil, joinComma]
      rw [← List.append_nil (encodeField s).toList,
        splitCSV_field s [] out (Or.inl rfl), splitCSV_finish]
      simp [mk_toList]
    | cons y ys =>
      simp only [List.map_cons, joinComma]
      rw [show (encodeField s ++ "," ++ joinComma (encodeField y :: ys.map encodeField)).toList
          = (encodeField s).toList ++
            (',' :: (joinComma (encodeField y :: ys.map encodeField)).toList) by
        rw [toList_append, toList_append, List.append_assoc]; rfl]
      rw [splitCSV_field s _ out (Or.inr ⟨_, rfl⟩), splitCSV_comma]
      rw [show String.mk s.toList.reverse.reverse = s by rw [List.reverse_reverse, mk_toList]]
      rw [← List.map_cons encodeField y ys, ih (s :: out) (by simp)]
      simp

/-- One written row splits back into its seven textual fields. -/
theorem splitLine_encodeRow (r : Record) : splitLine (encodeRow r) = some (rowStrings r) := by
  unfold splitLine encodeRow
  rw [parse_encodeRow (rowStrings r) [] (by simp [rowStrings])]
  simp

/-- All written rows split back into their textual fields. -/
theorem parseLines_encodeRows (t : List Record) :
    parseLines (t.map encodeRow) = some (t.map rowStrings) := by
  induction t with
  | nil => rfl
  | cons r rs ih => simp [parseLines, splitLine_encodeRow, ih]

/-- The header line splits into the seven column names. -/
theorem splitLine_header : splitLine csvHeader = some headerNames := by decide

/-- A cell of a text column that is not an NA marker reloads as its own
text. -/
theorem parseCell_textCol {s : String} (h1 : isNA s = false) :
    parseCell ColKind.textCol s = Cell.strv s := by
  simp [parseCell, h1]

/-- A cell of an int64 column reloads as the integer its text denotes. -/
theorem parseCell_intCol {s : String} {n : Int} (h1 : isNA s = false)
    (h2 : intOfString? s = some n) :
    parseCell ColKind.intCol s = Cell.intv n := by
  simp [parseCell, h1, h2]

/-- A column containing one clean text cell is inferred as a text column:
that cell defeats the int64, float64 and boolean conversions alike. -/
theorem colKind_textCol_of_clean {rows : List (List String)} {fr0 : List String} {i : Nat}
    (h0 : fr0 ∈ rows) (hc : cleanText (fr0.getD i "")) :
    colKind rows i = ColKind.textCol := by
  obtain ⟨hna, hint, hfl, hbl, -, -⟩ := hc
  have g1 : ¬ (rows.all (fun fr => (intOfString? (fr.getD i "")).isSome) = true) := by
    intro hall
    have hx : (intOfString? (fr0.getD i "")).isSome = true :=
      List.all_eq_true.mp hall fr0 h0
    rw [hint] at hx
    simp at hx
  have g2 : ¬ (rows.all (fun fr => isNA (fr.getD i "") || isFloatLike (fr.getD i "")) = true) := by
    intro hall
    have hx : (isNA (fr0.getD i "") || isFloatLike (fr0.getD i "")) = true :=
      List.all_eq_true.mp hall fr0 h0
    rw [hna, hfl] at hx
    simp at hx
  have g3 : ¬ (rows.all (fun fr => isNA (fr.getD i "") || isBoolLike (fr.getD i "")) = true) := by
    intro hall
    have hx : (isNA (fr0.getD i "") || isBoolLike (fr0.getD i "")) = true :=
      List.all_eq_true.mp hall fr0 h0
    rw [hna, hbl] at hx
    simp at hx
  unfold colKind
  rw [if_neg g1, if_neg g2, if_neg g3]

/-- Reading one written file line by line, in equation form. -/
theorem loadData_cons (h : String) (body : List String) :
    loadData (h :: body) =
      (match splitLine h with
       | none => none
       | some hdr =>
         match parseLines body with
         | none => none
         | some rows =>
           if rows.all (fun fr => fr.length == hdr.length) then
             some (hdr, rows.map (fun fr =>
               (List.range hdr.length).map
                 (fun i => parseCell (colKind rows i) (fr.getD i ""))))
           else none) := rfl

/-- Claim C8 as amended: for a table whose text fields are not NA markers
(`""`, `"None"`, `"NA"`, ... — pandas' documented defaults), are not
integer-, float- or boolean-shaped text (which `read_csv` would convert to
int64, float64 or bool instead of keeping as text), and hold no line
breaks, writing and reloading yields field-for-field identical records:
the serial comes back as the same integer, every text field as the same
text, under the seven fixed column names in order.  (The seed table itself
violates the hypothesis: its `"None"` sentinels are NA markers, see the
counterexample.) -/
theorem roundtrip_clean_table (t : List Record) (h : ∀ r ∈ t, cleanRecord r) :
    loadData (saveData t) = some (headerNames, t.map recordCells) := by
  cases t with
  | nil => decide
  | cons r0 rest =>
    obtain ⟨hsr0, hsrNA0, hsite0, hval0, hsens0, hwms0, hdesc0, hdate0⟩ :=
      h r0 (List.mem_cons_self _ _)
    have hmem0 : rowStrings r0 ∈ (r0 :: rest).map rowStrings :=
      List.mem_map_of_mem _ (List.mem_cons_self _ _)
    have hintAll : (((r0 :: rest).map rowStrings).all
        (fun fr => (intOfString? (fr.getD 0 "")).isSome)) = true := by
      rw [List.all_eq_true]
      intro fr hfr
      rcases List.mem_map.mp hfr with ⟨r', hr', rfl⟩
      show (intOfString? ((rowStrings r').getD 0 "")).isSome = true
      rw [show (rowStrings r').getD 0 "" = toString r'.srNo from rfl, (h r' hr').1]
      rfl
    have hnum : colKind ((r0 :: rest).map rowStrings) 0 = ColKind.intCol := by
      unfold colKind
      rw [if_pos hintAll]
    have ht1 := colKind_textCol_of_clean (i := 1) hmem0
      (show cleanText ((rowStrings r0).getD 1 "") from hsite0)
    have ht2 := colKind_textCol_of_clean (i := 2) hmem0
      (show cleanText ((rowStrings r0).getD 2 "") from hval0)
    have ht3 := colKind_textCol_of_clean (i := 3) hmem0
      (show cleanText ((rowStrings r0).getD 3 "") from hsens0)
    have ht4 := colKind_textCol_of_clean (i := 4) hmem0
      (show cleanText ((rowStrings r0).getD 4 "") from hwms0)
    have ht5 := colKind_textCol_of_clean (i := 5) hmem0
      (show cleanText ((rowStrings r0).getD 5 "") from hdesc0)
    have ht6 := colKind_textCol_of_clean (i := 6) hmem0
      (show cleanText ((rowStrings r0).getD 6 "") from hdate0)
    have hall : (((r0 :: rest).map rowStrings).all
        fun fr => fr.length == headerNames.length) = true := by
      rw [List.all_eq_true]
      intro fr hfr
      rcases List.mem_map.mp hfr with ⟨r', _, rfl⟩
      rfl
    have hstep : loadData (saveData (r0 :: rest)) =
        some (headerNames, ((r0 :: rest).map rowStrings).map (fun fr =>
          (List.range headerNames.length).map
            (fun i => parseCell (colKind ((r0 :: rest).map rowStrings) i) (fr.getD i "")))) := by
      rw [show saveData (r0 :: rest) = csvHeader :: (r0 :: rest).map encodeRow from rfl,
        loadData_cons, splitLine_header, parseLines_encodeRows]
      simp only [hall, if_true]
    rw [hstep]
    refine congrArg _ (congrArg _ ?_)
    rw [List.map_map]
    refine List.map_congr_left ?_
    intro r hr
    obtain ⟨hsr, hsrNA, hsite, hval, hsens, hwms, hdesc, hdate⟩ := h r hr
    show [parseCell (colKind ((r0 :: rest).map rowStrings) 0) ((rowStrings r).getD 0 ""),
          parseCell (colKind ((r0 :: rest).map rowStrings) 1) ((rowStrings r).getD 1 ""),
          parseCell (colKind ((r0 :: rest).map rowStrings) 2) ((rowStrings r).getD 2 ""),
          parseCell (colKind ((r0 :: rest).map rowStrings) 3) ((rowStrings r).getD 3 ""),
          parseCell (colKind ((r0 :: rest).map rowStrings) 4) ((rowStrings r).getD 4 ""),
          parseCell (colKind ((r0 :: rest).map rowStrings) 5) ((rowStrings r).getD 5 ""),
          parseCell (colKind ((r0 :: rest).map rowStrings) 6) ((rowStrings r).getD 6 "")] =
      recordCells r
    rw [hnum, ht1, ht2, ht3, ht4, ht5, ht6]
    rw [show (rowStrings r).getD 0 "" = toString r.srNo from rfl,
      show (rowStrings r).getD 1 "" = r.siteName from rfl,
      show (rowStrings r).getD 2 "" = r.validationReport from rfl,
      show (rowStrings r).getD 3 "" = r.issueSensors from rfl,
      show (rowStrings r).getD 4 "" = r.wmsType from rfl,
      show (rowStrings r).getD 5 "" = r.issueDescription from rfl,
      show (rowStrings r).getD 6 "" = r.dateLogged from rfl]
    rw [parseCell_intCol hsrNA hsr, parseCell_textCol hsite.1,
      parseCell_textCol hval.1, parseCell_textCol hsens.1,
      parseCell_textCol hwms.1, parseCell_textCol hdesc.1,
      parseCell_textCol hdate.1]
    rfl

/-- A record whose fields satisfy the clean-field side conditions. -/
def cleanRow : Record :=
  ⟨1, "Alpha", "Validated", "Temp Sensor", "WMS-1", "Calibration Drift", "2023-01-01"⟩

/-- Claim C8's amended theorem, instantiated on a one-row table with no
sentinel in any field: the reload reproduces the row exactly. -/
theorem roundtrip_clean_table_witness :
    loadData (saveData [cleanRow]) = some (headerNames, [cleanRow].map recordCells) :=
  roundtrip_clean_table [cleanRow] (by decide)

/-- What the seed table actually reloads as: rows two and five come back
with NaN — not the text `"None"` — in the `Issue Sensors` column, because
`None` is one of `read_csv`'s default NA markers. -/
def loadedSeed : List (List Cell) :=
  [ [.intv 1, .strv "Site-A (North)", .strv "Validated", .strv "Temp Sensor",
     .strv "WMS-1", .strv "Calibration Drift", .strv "2023-01-15"],
    [.intv 2, .strv "Site-B (South)", .strv "Failed", .nan,
     .strv "WMS-2", .strv "No Issues", .strv "2023-02-20"],
    [.intv 3, .strv "Site-C (East)", .strv "Validated", .strv "Humidity Sensor",
     .strv "WMS-1", .strv "Connector Fault", .strv "2023-03-10"],
    [.intv 4, .strv "Site-D (West)", .strv "Failed", .strv "Pressure Sensor",
     .strv "WMS-2", .strv "Power Failure", .strv "2023-04-05"],
    [.intv 5, .strv "Site-E (North)", .strv "Pending", .nan,
     .strv "WMS-1", .strv "No Issues", .strv "2023-05-12"] ]

/-- Counterexample to claim C8 as stated: writing the seed table and
reloading it does not give back field-for-field identical records — the
`"None"` sentinel cells reload as NaN. -/
theorem roundtrip_none_sentinel_cex :
    loadData (saveData seedTable) = some (headerNames, loadedSeed) ∧
    loadedSeed ≠ seedTable.map recordCells := by
  exact ⟨by decide, by decide⟩

end Wms
